import Mathlib

/-!
Verification of the `passync` AgileKeychain reader (package `agilekeychain`)
against its natural-language specification.

Shallow embedding conventions:
* Go byte slices are `List Nat` (each element a byte value).
* Go functions returning `(T, error)` become `GoResult T`; a Go runtime
  panic (out-of-range slice, `CryptBlocks` on partial blocks) is modelled
  by the `GoResult.panic` constructor so that crashes are distinguishable
  from returned errors.
* The cryptographic primitives used by the source (`crypto/md5`,
  `crypto/sha1`, `golang.org/x/crypto/pbkdf2`, `crypto/aes` +
  `crypto/cipher` CBC) are implemented concretely below so every theorem
  and witness evaluates on real byte strings.
* File access and JSON decoding are modelled away: the embedded functions
  take the decoded documents (key-record list, entry array) as arguments,
  exactly as the source's loops consume them.
-/

set_option maxRecDepth 10000

/-- Result of a Go computation: a value, a returned error, or a runtime panic. -/
inductive GoResult (α : Type) where
  | ok : α → GoResult α
  | error : String → GoResult α
  | panic : String → GoResult α
deriving DecidableEq, Repr

/-! ## 32-bit word arithmetic on `Nat` -/

/-- Mask for 32-bit words. -/
def mask32 : Nat := 4294967295

/-- Addition modulo 2^32. -/
def add32 (a b : Nat) : Nat := (a + b) % 4294967296

/-- Rotate a 32-bit word left by `s` bits. -/
def rotl32 (x s : Nat) : Nat := ((x <<< s) ||| (x >>> (32 - s))) &&& mask32

/-- Bytewise xor of two byte strings (length = shorter of the two, as Go's
`subtle.XORBytes`-style loops; all call sites use equal lengths). -/
def xorBytes (a b : List Nat) : List Nat := List.zipWith (fun x y => x ^^^ y) a b

/-- Little-endian bytes of a 32-bit word. -/
def leBytes32 (w : Nat) : List Nat :=
  [w &&& 255, (w >>> 8) &&& 255, (w >>> 16) &&& 255, (w >>> 24) &&& 255]

/-- Big-endian bytes of a 32-bit word. -/
def beBytes32 (w : Nat) : List Nat :=
  [(w >>> 24) &&& 255, (w >>> 16) &&& 255, (w >>> 8) &&& 255, w &&& 255]

/-- Little-endian bytes of a 64-bit quantity. -/
def leBytes64 (n : Nat) : List Nat :=
  (List.range 8).map (fun i => (n >>> (8 * i)) &&& 255)

/-- Big-endian bytes of a 64-bit quantity. -/
def beBytes64 (n : Nat) : List Nat :=
  ((List.range 8).map (fun i => (n >>> (8 * i)) &&& 255)).reverse

/-- Pack bytes into 32-bit words, little-endian (MD5 convention). -/
def wordsLE : List Nat → List Nat
  | b0 :: b1 :: b2 :: b3 :: rest =>
      (b0 ||| (b1 <<< 8) ||| (b2 <<< 16) ||| (b3 <<< 24)) :: wordsLE rest
  | _ => []

/-- Pack bytes into 32-bit words, big-endian (SHA-1 / AES convention). -/
def wordsBE : List Nat → List Nat
  | b0 :: b1 :: b2 :: b3 :: rest =>
      ((b0 <<< 24) ||| (b1 <<< 16) ||| (b2 <<< 8) ||| b3) :: wordsBE rest
  | _ => []

/-- Split a byte string into `n` chunks of 64 bytes (fuel-driven so that the
kernel can evaluate it). -/
def chunks64 : Nat → List Nat → List (List Nat)
  | 0, _ => []
  | n + 1, l => l.take 64 :: chunks64 n (l.drop 64)

/-! ## MD5 (`crypto/md5`) -/

/-- Table of MD5 round constants, `floor(2^32 * abs(sin(i+1)))`. -/
def md5T : List Nat := [3614090360, 3905402710, 606105819, 3250441966, 4118548399, 1200080426, 2821735955, 4249261313, 1770035416, 2336552879, 4294925233, 2304563134, 1804603682, 4254626195, 2792965006, 1236535329, 4129170786, 3225465664, 643717713, 3921069994, 3593408605, 38016083, 3634488961, 3889429448, 568446438, 3275163606, 4107603335, 1163531501, 2850285829, 4243563512, 1735328473, 2368359562, 4294588738, 2272392833, 1839030562, 4259657740, 2763975236, 1272893353, 4139469664, 3200236656, 681279174, 3936430074, 3572445317, 76029189, 3654602809, 3873151461, 530742520, 3299628645, 4096336452, 1126891415, 2878612391, 4237533241, 1700485571, 2399980690, 4293915773, 2240044497, 1873313359, 4264355552, 2734768916, 1309151649, 4149444226, 3174756917, 718787259, 3951481745]

/-- Table of MD5 per-round left-rotation amounts. -/
def md5S : List Nat := [7, 12, 17, 22, 7, 12, 17, 22, 7, 12, 17, 22, 7, 12, 17, 22, 5, 9, 14, 20, 5, 9, 14, 20, 5, 9, 14, 20, 5, 9, 14, 20, 4, 11, 16, 23, 4, 11, 16, 23, 4, 11, 16, 23, 4, 11, 16, 23, 6, 10, 15, 21, 6, 10, 15, 21, 6, 10, 15, 21, 6, 10, 15, 21]

/-- MD5 round function for step `i`. -/
def md5F (i b c d : Nat) : Nat :=
  if i < 16 then (b &&& c) ||| ((b ^^^ mask32) &&& d)
  else if i < 32 then (d &&& b) ||| ((d ^^^ mask32) &&& c)
  else if i < 48 then b ^^^ c ^^^ d
  else c ^^^ (b ||| (d ^^^ mask32))

/-- Message-word index used by MD5 step `i`. -/
def md5G (i : Nat) : Nat :=
  if i < 16 then i
  else if i < 32 then (5 * i + 1) % 16
  else if i < 48 then (3 * i + 5) % 16
  else (7 * i) % 16

/-- One MD5 step on state `(a, b, c, d)`. -/
def md5Step (w : List Nat) (st : Nat × Nat × Nat × Nat) (i : Nat) :
    Nat × Nat × Nat × Nat :=
  let (a, b, c, d) := st
  let sum := add32 (add32 a (md5F i b c d)) (add32 (md5T.getD i 0) (w.getD (md5G i) 0))
  (d, add32 b (rotl32 sum (md5S.getD i 0)), b, c)

/-- MD5 compression of one 64-byte chunk into the running state. -/
def md5Chunk (st : Nat × Nat × Nat × Nat) (chunk : List Nat) :
    Nat × Nat × Nat × Nat :=
  let w := wordsLE chunk
  let r := (List.range 64).foldl (md5Step w) st
  (add32 st.1 r.1, add32 st.2.1 r.2.1, add32 st.2.2.1 r.2.2.1, add32 st.2.2.2 r.2.2.2)

/-- MD5 padding: `0x80`, zeros to 56 mod 64, then the bit length little-endian. -/
def md5PadBytes (msg : List Nat) : List Nat :=
  msg ++ 128 :: List.replicate ((119 - msg.length % 64) % 64) 0
      ++ leBytes64 (msg.length * 8)

/-- MD5 digest (16 bytes) of a byte string, as computed by `crypto/md5`. -/
def md5sum (msg : List Nat) : List Nat :=
  let padded := md5PadBytes msg
  let f := (chunks64 (padded.length / 64) padded).foldl md5Chunk
    (1732584193, 4023233417, 2562383102, 271733878)
  leBytes32 f.1 ++ leBytes32 f.2.1 ++ leBytes32 f.2.2.1 ++ leBytes32 f.2.2.2

/-! ## SHA-1 (`crypto/sha1`) -/

/-- SHA-1 round function and constant for round `t`. -/
def sha1FK (t b c d : Nat) : Nat × Nat :=
  if t < 20 then ((b &&& c) ||| ((b ^^^ mask32) &&& d), 1518500249)
  else if t < 40 then (b ^^^ c ^^^ d, 1859775393)
  else if t < 60 then ((b &&& c) ||| (b &&& d) ||| (c &&& d), 2400959708)
  else (b ^^^ c ^^^ d, 3395469782)

/-- Extend the 16 message words to 80, accumulating in reverse order. -/
def sha1Extend : Nat → List Nat → List Nat
  | 0, acc => acc
  | n + 1, acc =>
      sha1Extend n
        (rotl32 (acc.getD 2 0 ^^^ acc.getD 7 0 ^^^ acc.getD 13 0 ^^^ acc.getD 15 0) 1 :: acc)

/-- One SHA-1 round on `(t, (a, b, c, d, e))` consuming message word `wt`. -/
def sha1Step (st : Nat × (Nat × Nat × Nat × Nat × Nat)) (wt : Nat) :
    Nat × (Nat × Nat × Nat × Nat × Nat) :=
  let (t, (a, b, c, d, e)) := st
  let fk := sha1FK t b c d
  let tmp := add32 (add32 (rotl32 a 5) fk.1) (add32 (add32 e fk.2) wt)
  (t + 1, (tmp, a, rotl32 b 30, c, d))

/-- SHA-1 compression of one 64-byte chunk into the running state. -/
def sha1Chunk (st : Nat × Nat × Nat × Nat × Nat) (chunk : List Nat) :
    Nat × Nat × Nat × Nat × Nat :=
  let w := (sha1Extend 64 (wordsBE chunk).reverse).reverse
  let r := (w.foldl sha1Step (0, st)).2
  (add32 st.1 r.1, add32 st.2.1 r.2.1, add32 st.2.2.1 r.2.2.1,
   add32 st.2.2.2.1 r.2.2.2.1, add32 st.2.2.2.2 r.2.2.2.2)

/-- SHA-1 padding: `0x80`, zeros to 56 mod 64, then the bit length big-endian. -/
def sha1PadBytes (msg : List Nat) : List Nat :=
  msg ++ 128 :: List.replicate ((119 - msg.length % 64) % 64) 0
      ++ beBytes64 (msg.length * 8)

/-- SHA-1 digest (20 bytes) of a byte string, as computed by `crypto/sha1`. -/
def sha1sum (msg : List Nat) : List Nat :=
  let padded := sha1PadBytes msg
  let f := (chunks64 (padded.length / 64) padded).foldl sha1Chunk
    (1732584193, 4023233417, 2562383102, 271733878, 3285377520)
  beBytes32 f.1 ++ beBytes32 f.2.1 ++ beBytes32 f.2.2.1
    ++ beBytes32 f.2.2.2.1 ++ beBytes32 f.2.2.2.2

/-! ## HMAC-SHA1 and PBKDF2 (`golang.org/x/crypto/pbkdf2` with `sha1.New`) -/

/-- HMAC-SHA1 of `msg` under `key` (block size 64). -/
def hmacSha1 (key msg : List Nat) : List Nat :=
  let k0 := if 64 < key.length then sha1sum key else key
  let k := k0 ++ List.replicate (64 - k0.length) 0
  sha1sum ((k.map (fun b => b ^^^ 92)) ++ sha1sum ((k.map (fun b => b ^^^ 54)) ++ msg))

/-- Iterate the PBKDF2 inner loop: `count` further rounds of `U := PRF(U)`,
xoring each `U` into the running block `t`. -/
def pbkdf2Iter (pass : List Nat) : Nat → List Nat → List Nat → List Nat
  | 0, _, t => t
  | n + 1, u, t =>
      let u2 := hmacSha1 pass u
      pbkdf2Iter pass n u2 (xorBytes t u2)

/-- One PBKDF2 output block `T_i` (RFC 2898 `F(P, S, c, i)`). -/
def pbkdf2BlockF (pass salt : List Nat) (iter i : Nat) : List Nat :=
  let u1 := hmacSha1 pass (salt ++ beBytes32 i)
  pbkdf2Iter pass (iter - 1) u1 u1

/-- PBKDF2-HMAC-SHA1, the `pbkdf2.Key(pass, salt, iter, keyLen, sha1.New)`
call of the source (`iter <= 1` behaves like one iteration, as in the Go
loop `for n := 2; n <= iter; n++`). -/
def pbkdf2Key (pass salt : List Nat) (iter keyLen : Nat) : List Nat :=
  (((List.range ((keyLen + 19) / 20)).map
      (fun i => pbkdf2BlockF pass salt iter (i + 1))).foldr List.append []).take keyLen

/-! ## AES block decryption (`crypto/aes`), FIPS-197 inverse cipher -/

/-- AES S-box packed as one natural number, byte `i` at bit offset `8*i`. -/
def sboxNat : Nat := 2869618975290639062594974519597816386035077209210385677284518162336985023502962151465775969507961862820568736543004676439868535775640188584098917533413284844376797297285941524888791401501466624530423689326528054213168201056672989590893583853414110162539122864583953358348775951166211353578440977400428507475679327181038682772945817200201960445064847785221508011893952350688324234443749897213621340677040612747745615276448919507935121141307752692835344166708617454322778699219895865633266409040561742768581056182730443599545881830075941537620590442514083341749674612746994879540562701631131184186066652929592955206755

/-- AES inverse S-box, packed like `sboxNat`. -/
def invSboxNat : Nat := 15785769749828884342349381641981096363179738000380205650940338083111619982568718420166261191398703005748170232611805704157196303061330872280026969925224128193193768962594508714770967646139604422718174787315048227180018877623049221087186576642191304514338137614235628241783007805847129270530950856841486400764657112140097236091222567730363620332611309375046737430203438830593833719428588466121688739068564421474273450162064709239629809347626728710072303178617319436726577534667237755444692000788692193415136619289353224918429728194544458916874716857284226411602766869706570927007876872095880586785662942963508062062930

/-- GF(2^8) multiplication-by-9 table, packed like `sboxNat`. -/
def mul9Nat : Nat := 8875800206676231233701243093037991435892820171169916784212686138618272775022945573285003956930101804132570244180486893696338426119125697617487505053305019391078452041171720238582278824352345150014134608923380002411540182399855297251710853225217122628921227208582311712405524813144982781242696704635609266321940544417729379922905250356217345749200516009654420718585965795693028792943576298910991546489194988553624796944920535299482344994524418256347438720733242826317236165094751904288306059757648895161575829661503528205507542121434477288647604052975262540305993897881349643805951627695476696173059092458303168579840

/-- GF(2^8) multiplication-by-11 table, packed like `sboxNat`. -/
def mul11Nat : Nat := 20660037681057546434569796275159181838479904952512643273806643507766143283772057439060419035649261649766718144834351654274951171845491047146754362976279371340404592299720552026658750495605700011811481807106698209471695919590040201347318860671359017121701880798234681581037134898319689396355614186019758485717054749992248840995940992615458479053327988302541455430365511788916032458251381176675035888998960581052066836736929713860795351891151396512863268422787562719967588893482144796700121704512809072848513166322741200632883769161354058857808590875411713191597258555324046859665658420153755880783648214387959407184640

/-- GF(2^8) multiplication-by-13 table, packed like `sboxNat`. -/
def mul13Nat : Nat := 19138196848495869605120511558559239350965271065994991961240301511853740095611541283376038542306365123738129448692639514603083014128499463859328439565186102911611069345000827123701362194545999439720750984632977195243846286362462415909436277106797479059866551396947858323319980774417875675921867639957502891587465414444830963643657688594257097630455894848761410270925351913738136053681726757806999801729198632017884776933148886006414664898098777819019295640819165685098721075686948126956433128788785326234477653004815354437539193788019007304928778657778656315023763906850773490198904399435119974847211450672131266448640

/-- GF(2^8) multiplication-by-14 table, packed like `sboxNat`. -/
def mul14Nat : Nat := 17864480014884770448341771077560609799285446646958910005847266087176511584336450046277440330989852911982032248350016470062144232722313878833555006445368793394394110529483499328924098050678867718825055588086459160420708307799758563350760248515731481671490350979629499887553466166785595932366127294347362177681962304276728524400718028523154997411546527350275384898504348386776929690162748186352725508860704250747799418330300045848129211501812703387466121761170394370004206798559078089019730874660581757631840806018117816157917699717536029034409891165085778749802507617890945859671717747346411418272250830228758462205440

/-- Look up the AES S-box. -/
def sboxAt (b : Nat) : Nat := (sboxNat >>> (8 * b)) &&& 255

/-- Look up the AES inverse S-box. -/
def invSboxAt (b : Nat) : Nat := (invSboxNat >>> (8 * b)) &&& 255

/-- Multiply by 9 in GF(2^8). -/
def mul9 (b : Nat) : Nat := (mul9Nat >>> (8 * b)) &&& 255

/-- Multiply by 11 in GF(2^8). -/
def mul11 (b : Nat) : Nat := (mul11Nat >>> (8 * b)) &&& 255

/-- Multiply by 13 in GF(2^8). -/
def mul13 (b : Nat) : Nat := (mul13Nat >>> (8 * b)) &&& 255

/-- Multiply by 14 in GF(2^8). -/
def mul14 (b : Nat) : Nat := (mul14Nat >>> (8 * b)) &&& 255

/-- Apply the S-box to each byte of a 32-bit word. -/
def subWord (w : Nat) : Nat :=
  (sboxAt ((w >>> 24) &&& 255)) <<< 24 ||| (sboxAt ((w >>> 16) &&& 255)) <<< 16
    ||| (sboxAt ((w >>> 8) &&& 255)) <<< 8 ||| sboxAt (w &&& 255)

/-- Rotate a 32-bit word left by one byte. -/
def rotWord (w : Nat) : Nat := ((w <<< 8) ||| (w >>> 24)) &&& mask32

/-- AES round constants (index `i/Nk` during key expansion). -/
def rconT : List Nat := [0, 1, 2, 4, 8, 16, 32, 64, 128, 27, 54]

/-- Key-expansion loop; `acc` holds the schedule words in reverse order, so
word `i - 1` is `acc.getD 0` and word `i - nk` is `acc.getD (nk - 1)`. -/
def expandWords (nk : Nat) : Nat → List Nat → List Nat
  | 0, acc => acc
  | n + 1, acc =>
      let i := acc.length
      let prev := acc.getD 0 0
      let t :=
        if i % nk = 0 then subWord (rotWord prev) ^^^ ((rconT.getD (i / nk) 0) <<< 24)
        else if 6 < nk ∧ i % nk = 4 then subWord prev
        else prev
      expandWords nk n ((acc.getD (nk - 1) 0 ^^^ t) :: acc)

/-- AES key schedule: `4 * (Nr + 1)` 32-bit words. -/
def expandKey (key : List Nat) : List Nat :=
  let nk := key.length / 4
  let nr := nk + 6
  (expandWords nk (4 * (nr + 1) - nk) (wordsBE key).reverse).reverse

/-- Bytes of round key `rnd` (four schedule words, big-endian). -/
def rkBytes (w : List Nat) (rnd : Nat) : List Nat :=
  beBytes32 (w.getD (4 * rnd) 0) ++ beBytes32 (w.getD (4 * rnd + 1) 0)
    ++ beBytes32 (w.getD (4 * rnd + 2) 0) ++ beBytes32 (w.getD (4 * rnd + 3) 0)

/-- InvShiftRows on a 16-byte state in column-major byte order. -/
def invShiftRows (s : List Nat) : List Nat :=
  [s.getD 0 0, s.getD 13 0, s.getD 10 0, s.getD 7 0,
   s.getD 4 0, s.getD 1 0, s.getD 14 0, s.getD 11 0,
   s.getD 8 0, s.getD 5 0, s.getD 2 0, s.getD 15 0,
   s.getD 12 0, s.getD 9 0, s.getD 6 0, s.getD 3 0]

/-- InvSubBytes: inverse S-box on every byte. -/
def invSubBytes (s : List Nat) : List Nat := s.map invSboxAt

/-- InvMixColumns, column by column. -/
def invMixCols : List Nat → List Nat
  | s0 :: s1 :: s2 :: s3 :: rest =>
      (mul14 s0 ^^^ mul11 s1 ^^^ mul13 s2 ^^^ mul9 s3) ::
      (mul9 s0 ^^^ mul14 s1 ^^^ mul11 s2 ^^^ mul13 s3) ::
      (mul13 s0 ^^^ mul9 s1 ^^^ mul14 s2 ^^^ mul11 s3) ::
      (mul11 s0 ^^^ mul13 s1 ^^^ mul9 s2 ^^^ mul14 s3) :: invMixCols rest
  | l => l

/-- Middle rounds of the FIPS-197 inverse cipher, from round `r` down to 1. -/
def invRounds (w : List Nat) : Nat → List Nat → List Nat
  | 0, s => s
  | r + 1, s =>
      invRounds w r (invMixCols (xorBytes (invSubBytes (invShiftRows s)) (rkBytes w (r + 1))))

/-- AES block decryption (FIPS-197 InvCipher); functional behavior of
`crypto/aes`'s `Block.Decrypt` for 16/24/32-byte keys. -/
def invCipher (key block : List Nat) : List Nat :=
  let w := expandKey key
  let nr := key.length / 4 + 6
  let s := invRounds w (nr - 1) (xorBytes block (rkBytes w nr))
  xorBytes (invSubBytes (invShiftRows s)) (rkBytes w 0)

/-- CBC decryption chain: decrypt each 16-byte block and xor with the
previous ciphertext block (the IV first); fuel is the block count. -/
def cbcChain (key : List Nat) : Nat → List Nat → List Nat → List Nat
  | 0, _, _ => []
  | n + 1, prev, ct =>
      xorBytes (invCipher key (ct.take 16)) prev ++ cbcChain key n (ct.take 16) (ct.drop 16)

/-! ## The repository's crypto helpers (`agilekeychain.go`) -/

/-- PKCS#7 unpadding, the source's `unpad(data, blocksize)`
(agilekeychain.go:264-294): rejects a non-positive block size, empty data,
and data whose length is not a multiple of the block size; then reads the
last byte as the pad size, rejects pad size 0 or larger than the data, and
checks the final `padSize` bytes all equal it. -/
def unpad (data : List Nat) (blocksize : Int) : Except String (List Nat) :=
  if blocksize ≤ 0 then .error "Invalid block size"
  else if data.length = 0 then .error "Invalid data"
  else if (data.length : Int) % blocksize ≠ 0 then .error "Input is not a multiple of blocksize"
  else
    let lastByte := data.getLast?.getD 0
    if lastByte = 0 ∨ data.length < lastByte then .error "Invalid pad size"
    else if (data.drop (data.length - lastByte)).all (fun b => b == lastByte) then
      .ok (data.take (data.length - lastByte))
    else .error "Invalid padding"

/-- ASCII bytes of the OpenSSL magic "Salted__". -/
def saltMagic : List Nat := [83, 97, 108, 116, 101, 100, 95, 95]

/-- The source's `extractSalt(input)` (agilekeychain.go:297-308). The Go
code slices `input[0:8]` and `input[8:16]` without a length check, so on
inputs shorter than 8 bytes — or shorter than 16 with the magic present —
it panics with a slice-bounds error instead of returning one. -/
def extractSalt (input : List Nat) : GoResult (List Nat × List Nat) :=
  if input.length < 8 then .panic "runtime error: slice bounds out of range"
  else if input.take 8 = saltMagic then
    if input.length < 16 then .panic "runtime error: slice bounds out of range"
    else .ok ((input.drop 8).take 8, input.drop 16)
  else .error "No OpenSSL salt found"

/-- The source's `deriveOpensslKey(password, salt)`
(agilekeychain.go:311-325): the two-round chained MD5 derivation
(`rounds = 2`), returning `(md5Hashes[0], md5Hashes[1])`. -/
def deriveOpensslKey (password salt : List Nat) : List Nat × List Nat :=
  let data := password ++ salt
  let h0 := md5sum data
  let h1 := md5sum (h0 ++ data)
  (h0, h1)

/-- The source's `cbcDecrypt(blob, key, iv)` (agilekeychain.go:241-261):
`aes.NewCipher` rejects key sizes other than 16/24/32; `NewCBCDecrypter`
panics when the IV is not one block; `CryptBlocks` panics when the
ciphertext is not a whole number of blocks; then the decrypted bytes are
unpadded with block size 16. -/
def cbcDecrypt (blob key iv : List Nat) : GoResult (List Nat) :=
  if key.length ≠ 16 ∧ key.length ≠ 24 ∧ key.length ≠ 32 then
    .error "crypto/aes: invalid key size"
  else if iv.length ≠ 16 then
    .panic "cipher.NewCBCDecrypter: IV length must equal block size"
  else if blob.length % 16 ≠ 0 then
    .panic "crypto/cipher: input not full blocks"
  else
    match unpad (cbcChain key (blob.length / 16) iv blob) 16 with
    | .ok r => .ok r
    | .error e => .error e

/-- The source's `stripTrailingNull(str)` (agilekeychain.go:197-202):
drop one trailing NUL byte if present. -/
def stripTrailingNull (str : List Nat) : List Nat :=
  if str.getLast? = some 0 then str.dropLast else str

/-- The source's `decryptKey(dataBytes, iterations, passphrase)`
(agilekeychain.go:204-220): extract the salt, derive 32 bytes with
PBKDF2-SHA1, split into KEK and IV, CBC-decrypt the blob. The source ends
with `return key, nil`, discarding `cbcDecrypt`'s error, so a failed
decryption yields `ok` with the nil (empty) key rather than an error;
only a panic propagates. -/
def decryptKey (dataBytes : List Nat) (iterations : Nat) (passphrase : List Nat) :
    GoResult (List Nat) :=
  match extractSalt dataBytes with
  | .panic s => .panic s
  | .error e => .error e
  | .ok (salt, blob) =>
      let derivedKey := pbkdf2Key passphrase salt iterations 32
      let kek := derivedKey.take 16
      let iv := (derivedKey.drop 16).take 16
      match cbcDecrypt blob kek iv with
      | .panic s => .panic s
      | .error _ => .ok []
      | .ok key => .ok key

/-- The source's `validateKey(keyBytes, validationBytes)`
(agilekeychain.go:222-239): extract the validation salt, derive KEK and IV
from the candidate key itself via `deriveOpensslKey`, CBC-decrypt the
validation blob, and require the result to equal the candidate. -/
def validateKey (keyBytes validationBytes : List Nat) : GoResult Unit :=
  match extractSalt validationBytes with
  | .panic s => .panic s
  | .error e => .error e
  | .ok (salt, blob) =>
      let kv := deriveOpensslKey keyBytes salt
      match cbcDecrypt blob kv.1 kv.2 with
      | .panic s => .panic s
      | .error e => .error e
      | .ok validationResult =>
          if keyBytes = validationResult then .ok () else .error "key validation failed"

/-! ## Base64 (`encoding/base64` StdEncoding) -/

/-- Value of one standard-alphabet base64 character. -/
def b64val (c : Nat) : Option Nat :=
  if 65 ≤ c ∧ c ≤ 90 then some (c - 65)
  else if 97 ≤ c ∧ c ≤ 122 then some (c - 71)
  else if 48 ≤ c ∧ c ≤ 57 then some (c + 4)
  else if c = 43 then some 62
  else if c = 47 then some 63
  else none

/-- Decode base64 quartets; `=` (61) padding only in the final quartet, as
Go's `StdEncoding` requires. -/
def b64core : List Nat → Option (List Nat)
  | [] => some []
  | a :: b :: c :: d :: rest => do
      let va ← b64val a
      let vb ← b64val b
      if c = 61 ∧ d = 61 ∧ rest = [] then
        some [((va <<< 2) ||| (vb >>> 4)) &&& 255]
      else if d = 61 ∧ rest = [] then do
        let vc ← b64val c
        some [((va <<< 2) ||| (vb >>> 4)) &&& 255, ((vb <<< 4) ||| (vc >>> 2)) &&& 255]
      else do
        let vc ← b64val c
        let vd ← b64val d
        let tail ← b64core rest
        some ((((va <<< 2) ||| (vb >>> 4)) &&& 255) :: (((vb <<< 4) ||| (vc >>> 2)) &&& 255)
          :: ((((vc <<< 6) ||| vd) &&& 255) :: tail))
  | _ => none

/-- Go's `base64.StdEncoding.DecodeString`: newlines are skipped, the rest
must be valid padded quartets. -/
def b64decode (s : List Nat) : Option (List Nat) :=
  b64core (s.filter (fun c => c != 13 && c != 10))

/-! ## The key recovery loop (`loadEncryptionKeys`) -/

/-- One record of the key-metadata document's `List`, after JSON decoding:
the source's local `rawEncryptionKey` struct (agilekeychain.go:144-150).
`data` and `validation` hold the base64 text as bytes. -/
structure RawEncryptionKey where
  data : List Nat
  validation : List Nat
  level : String
  identifier : String
  iterations : Nat
deriving DecidableEq, Repr

/-- Value carried by a `GoResult` from `decryptKey`, as the caller sees it:
Go returns the nil slice alongside an error, so non-ok results carry `[]`. -/
def keyBytesOf : GoResult (List Nat) → List Nat
  | .ok k => k
  | _ => []

/-- The record loop of the source's `loadEncryptionKeys(passphrase)`
(agilekeychain.go:173-194), taking the JSON-decoded record list.
Per record: strip one trailing NUL from the base64 text of `Data` and
`Validation`, base64-decode both (returning decode errors), call
`decryptKey` — whose error the source discards by immediately overwriting
`err` with `validateKey`'s result — then fail on a validation error and
otherwise continue. On success the function returns nothing: recovered
key bytes are dropped. -/
def loadEncryptionKeys : List RawEncryptionKey → List Nat → GoResult Unit
  | [], _ => .ok ()
  | r :: rest, passphrase =>
      match b64decode (stripTrailingNull r.data) with
      | none => .error "illegal base64 data"
      | some data =>
          match b64decode (stripTrailingNull r.validation) with
          | none => .error "illegal base64 data"
          | some validation =>
              match decryptKey data r.iterations passphrase with
              | .panic s => .panic s
              | dk =>
                  match validateKey (keyBytesOf dk) validation with
                  | .panic s => .panic s
                  | .error e => .error ("Failed to validate key " ++ r.identifier ++ ": " ++ e)
                  | .ok () => loadEncryptionKeys rest passphrase

/-! ## The entry-index parser (`loadContents`) -/

/-- JSON value as Go's `interface\x7b\x7d` decoding sees it: a string, a
number (`float64`; modelled as `Int`, since the claims concern only the
positional type check), or anything else. -/
inductive JVal where
  | str : String → JVal
  | num : Int → JVal
  | other : JVal
deriving DecidableEq, Repr

/-- The source's `keychainContentsEntry` (agilekeychain.go:32-41). -/
structure Entry where
  id : String
  entryType : String
  title : String
  site : String
  date : Int
  unknown1 : String
  unknown2 : Int
  unknown3 : String
deriving DecidableEq, Repr

/-- String type assertion `v.(string)`. -/
def asStr : JVal → Option String
  | .str v => some v
  | _ => none

/-- Number type assertion `v.(float64)`. -/
def asNum : JVal → Option Int
  | .num v => some v
  | _ => none

/-- The per-entry body of `loadContents`'s loop (agilekeychain.go:107-131):
positional type assertions on the first eight elements; `none` when any
assertion fails (the source's `allOk` flag). -/
def cookEntry (e : List JVal) : Option Entry := do
  let id ← asStr (e.getD 0 .other)
  let entryType ← asStr (e.getD 1 .other)
  let title ← asStr (e.getD 2 .other)
  let site ← asStr (e.getD 3 .other)
  let date ← asNum (e.getD 4 .other)
  let unknown1 ← asStr (e.getD 5 .other)
  let unknown2 ← asNum (e.getD 6 .other)
  let unknown3 ← asStr (e.getD 7 .other)
  some ⟨id, entryType, title, site, date, unknown1, unknown2, unknown3⟩

/-- The decode loop of the source's `loadContents` (agilekeychain.go:98-140),
taking the JSON-decoded array of arrays. Go indexes `entry[0]` … `entry[7]`
unconditionally, so an entry with fewer than eight elements panics with an
index-out-of-range runtime error before the `allOk` check can fail; an
entry with eight or more elements is checked on its first eight only, and
a failed type assertion aborts the whole parse with an error (whose Go
message interpolates the entry value, not its index). -/
def loadContents : List (List JVal) → GoResult (List Entry)
  | [] => .ok []
  | e :: rest =>
      if e.length < 8 then .panic "runtime error: index out of range"
      else
        match cookEntry e with
        | none => .error "Failed to parse keychain contents entry"
        | some ent =>
            match loadContents rest with
            | .ok cooked => .ok (ent :: cooked)
            | r => r

/-! ## Definitions following the specification's words

The remaining definitions are not translations of the source: they restate
the specification's contracts (spec.md §4.1, §4.2, §8) so that the source
functions can be compared against them (refinement / round-trip claims). -/

/-- Modelled from the spec: `extract_salted_blob` (§4.1), which "fails on
any input under 16 bytes or lacking the 8-byte magic prefix" and otherwise
splits 8 magic + 8 salt + N ciphertext bytes. -/
def specExtractSaltedBlob (input : List Nat) : Except String (List Nat × List Nat) :=
  if input.length < 16 ∨ input.take 8 ≠ saltMagic then .error "MissingSaltHeader"
  else .ok ((input.drop 8).take 8, input.drop 16)

/-- Modelled from the spec: `aes128_cbc_decrypt` (§4.1), failing unless the
ciphertext length is a nonzero multiple of 16, otherwise plain CBC
decryption (no unpadding). -/
def specAes128CbcDecrypt (ct key iv : List Nat) : Except String (List Nat) :=
  if ct.length = 0 ∨ ct.length % 16 ≠ 0 then .error "InvalidBlockLength"
  else .ok (cbcChain key (ct.length / 16) iv ct)

/-- Modelled from the spec: `pkcs7_unpad` (§4.1), which "reads the last
byte as the declared pad length p; fails if p == 0 or p > len(data); fails
if any of the last p bytes is not equal to p; otherwise returns data with
the last p bytes removed". -/
def specPkcs7Unpad (data : List Nat) : Except String (List Nat) :=
  let p := data.getLast?.getD 0
  if p = 0 ∨ data.length < p then .error "bad pad length"
  else if (data.drop (data.length - p)).all (fun b => b == p) then
    .ok (data.take (data.length - p))
  else .error "inconsistent padding"

/-- Modelled from the spec: the per-record algorithm of `recover_keys`
(§4.2 steps 1-9), producing the record's `(identifier, raw key)` pair or
the step's error. -/
def specRecoverOne (r : RawEncryptionKey) (pass : List Nat) :
    Except String (String × List Nat) :=
  match b64decode (stripTrailingNull r.data), b64decode (stripTrailingNull r.validation) with
  | some d, some v =>
      match specExtractSaltedBlob d with
      | .error e => .error e
      | .ok (saltD, ctD) =>
          let dk := pbkdf2Key pass saltD r.iterations 32
          match specAes128CbcDecrypt ctD (dk.take 16) ((dk.drop 16).take 16) with
          | .error _ => .error "KeyDecryptionFailed"
          | .ok padded =>
              match specPkcs7Unpad padded with
              | .error _ => .error "KeyDecryptionFailed"
              | .ok cand =>
                  match specExtractSaltedBlob v with
                  | .error e => .error e
                  | .ok (saltV, ctV) =>
                      let kv := deriveOpensslKey cand saltV
                      match specAes128CbcDecrypt ctV kv.1 kv.2 with
                      | .error _ => .error "ValidationMismatch"
                      | .ok vpadded =>
                          match specPkcs7Unpad vpadded with
                          | .error _ => .error "ValidationMismatch"
                          | .ok vplain =>
                              if vplain = cand then .ok (r.identifier, cand)
                              else .error "ValidationMismatch"
  | _, _ => .error "InvalidBase64"

/-- Modelled from the spec: `recover_keys(key_records, passphrase)` (§4.2),
a mapping from identifier to validated raw key bytes, failing on the first
record that cannot be decrypted or validated. -/
def recoverKeysSpec : List RawEncryptionKey → List Nat → Except String (List (String × List Nat))
  | [], _ => .ok []
  | r :: rest, pass =>
      match specRecoverOne r pass with
      | .error e => .error e
      | .ok p =>
          match recoverKeysSpec rest pass with
          | .error e => .error e
          | .ok m => .ok (p :: m)

/-- Modelled from the spec: PKCS#7 padding with a chosen pad amount `p`
(§8 round-trip law, glossary "pad value equals the pad length"); the
repository itself contains no padding routine. -/
def pkcs7pad (data : List Nat) (p : Nat) : List Nat :=
  data ++ List.replicate p p

/-! ## Concrete inputs used by witnesses and counterexamples -/

/-- Byte string of the passphrase `"1Password"` that `NewAgileKeychain`
passes to `loadEncryptionKeys`. -/
def passBug : List Nat := [49, 80, 97, 115, 115, 119, 111, 114, 100]

/-- Decoded `Data` payload of the crafted record `recordBug`:
`"Salted__"`, salt `[1..8]`, and one all-zero ciphertext block whose
CBC decryption under the PBKDF2 KEK/IV has an invalid last pad byte. -/
def dataBug : List Nat := [83, 97, 108, 116, 101, 100, 95, 95, 1, 2, 3, 4, 5, 6, 7, 8, 0, 0, 0, 0, 0, 0, 0, 0, 0, 0, 0, 0, 0, 0, 0, 0]

/-- Base64 text of `dataBug`. -/
def dataBugB64 : List Nat := [85, 50, 70, 115, 100, 71, 86, 107, 88, 49, 56, 66, 65, 103, 77, 69, 66, 81, 89, 72, 67, 65, 65, 65, 65, 65, 65, 65, 65, 65, 65, 65, 65, 65, 65, 65, 65, 65, 65, 65, 65, 65, 65, 61]

/-- Decoded `Validation` payload of `recordBug`: `"Salted__"`, salt
`[11..18]`, and the AES-128-CBC encryption — under the key/IV that
`deriveOpensslKey` derives from the EMPTY candidate key — of a block of
sixteen `0x10` bytes, so it decrypts and unpads to the empty string. -/
def validationBug : List Nat := [83, 97, 108, 116, 101, 100, 95, 95, 11, 12, 13, 14, 15, 16, 17, 18, 74, 40, 156, 69, 210, 228, 161, 7, 114, 145, 234, 55, 29, 244, 100, 125]

/-- Base64 text of `validationBug`. -/
def valBugB64 : List Nat := [85, 50, 70, 115, 100, 71, 86, 107, 88, 49, 56, 76, 68, 65, 48, 79, 68, 120, 65, 82, 69, 107, 111, 111, 110, 69, 88, 83, 53, 75, 69, 72, 99, 112, 72, 113, 78, 120, 51, 48, 90, 72, 48, 61]

/-- A key record whose wrapped key fails CBC/unpad decryption (step 5)
while its validation blob validates the resulting nil candidate. -/
def recordBug : RawEncryptionKey :=
  ⟨dataBugB64, valBugB64, "SL5", "BUG1", 1⟩

/-- Candidate raw key for the `validateKey` witness. -/
def kbW : List Nat := [1, 2, 3, 4]

/-- Validation salt for the `validateKey` witness. -/
def sW : List Nat := [21, 22, 23, 24, 25, 26, 27, 28]

/-- Ciphertext that decrypts, under the key/IV derived from `kbW` and
`sW`, to `kbW` plus twelve `0x0c` pad bytes. -/
def ctW : List Nat := [2, 49, 126, 163, 116, 241, 122, 124, 190, 224, 25, 41, 165, 0, 130, 187]

/-- Well-formed validation blob for `kbW`: magic, `sW`, `ctW`. -/
def vbW : List Nat := [83, 97, 108, 116, 101, 100, 95, 95, 21, 22, 23, 24, 25, 26, 27, 28, 2, 49, 126, 163, 116, 241, 122, 124, 190, 224, 25, 41, 165, 0, 130, 187]

-- Equality of `Except` results is decidable (used to evaluate the spec
-- model on concrete inputs).
deriving instance DecidableEq for Except

/-- Well-typed eight-element raw entry for the parser witness. -/
def goodRaw : List JVal :=
  [.str "a", .str "b", .str "c", .str "d", .num 1, .str "e", .num 2, .str "f"]

/-- Eight-element raw entry with a number where a string is expected. -/
def badRaw : List JVal :=
  [.str "a", .num 0, .str "c", .str "d", .num 1, .str "e", .num 2, .str "f"]

/-- One-element raw entry (Go indexes past its end). -/
def shortRaw : List JVal := [.str "a"]

/-! ## Claim theorems -/

/-- C4: for every secret byte sequence and salt, the legacy derivation
returns key = MD5(secret ‖ salt) and iv = MD5(key ‖ secret ‖ salt) — the
two-round chained MD5 scheme — and, being a pure function of its inputs,
it is deterministic: repeated calls return the same bytes. -/
theorem deriveOpensslKey_two_round_md5 (secret salt : List Nat) :
    deriveOpensslKey secret salt
      = (md5sum (secret ++ salt), md5sum (md5sum (secret ++ salt) ++ secret ++ salt))
    ∧ deriveOpensslKey secret salt = deriveOpensslKey secret salt := by
  refine ⟨?_, rfl⟩
  simp [deriveOpensslKey, List.append_assoc]

/-- C4 witness: the formula and determinism at a concrete secret and an
8-byte salt. -/
theorem deriveOpensslKey_two_round_md5_witness :
    deriveOpensslKey [1, 2] [0, 0, 0, 0, 0, 0, 0, 0]
      = (md5sum ([1, 2] ++ [0, 0, 0, 0, 0, 0, 0, 0]),
         md5sum (md5sum ([1, 2] ++ [0, 0, 0, 0, 0, 0, 0, 0]) ++ [1, 2] ++ [0, 0, 0, 0, 0, 0, 0, 0])) :=
  (deriveOpensslKey_two_round_md5 [1, 2] [0, 0, 0, 0, 0, 0, 0, 0]).1

/-- C5: `extractSalt` panics (slice bounds out of range) on the empty
input and on an input of exactly the 8 magic bytes, instead of returning
an error as the specification requires for every input under 16 bytes; on
a valid 8+8+N input it splits salt and ciphertext correctly, and on a
16-byte input without the magic it does return an error. -/
theorem extractSalt_short_input_crashes :
    extractSalt [] = .panic "runtime error: slice bounds out of range"
    ∧ extractSalt saltMagic = .panic "runtime error: slice bounds out of range"
    ∧ extractSalt (saltMagic ++ [1, 2, 3, 4, 5, 6, 7, 8] ++ [9, 9])
        = .ok ([1, 2, 3, 4, 5, 6, 7, 8], [9, 9])
    ∧ extractSalt (List.replicate 16 0) = .error "No OpenSSL salt found" :=
  ⟨by decide, by decide, by decide, by decide⟩

/-- C6: `cbcDecrypt` panics (Go's `CryptBlocks` "input not full blocks")
on a ciphertext whose length is not a multiple of 16, instead of returning
an invalid-block-length error; the empty ciphertext is rejected with a
returned error (from `unpad`). -/
theorem cbcDecrypt_partial_block_crashes :
    cbcDecrypt [0] (List.replicate 16 0) (List.replicate 16 0)
        = .panic "crypto/cipher: input not full blocks"
    ∧ cbcDecrypt [] (List.replicate 16 0) (List.replicate 16 0) = .error "Invalid data" :=
  ⟨by decide, by decide⟩

/-- C7 counterexample: an entry with nine elements whose first eight
type-check is accepted (the claim requires exactly eight), and an entry
with fewer than eight elements crashes the parse with an index-range
panic (the claim requires an error, not a crash). -/
theorem loadContents_exact_arity_counterexample :
    loadContents [[JVal.str "a", JVal.str "b", JVal.str "c", JVal.str "d", JVal.num 1,
        JVal.str "e", JVal.num 2, JVal.str "f", JVal.str "g"]]
      = .ok [⟨"a", "b", "c", "d", 1, "e", 2, "f"⟩]
    ∧ loadContents [[JVal.str "a"]] = .panic "runtime error: index out of range" :=
  ⟨rfl, rfl⟩

/-- C7 amended: entries are type-checked positionally on their first eight
elements; if every entry has at least eight elements and type-checks, the
parse succeeds with one record per entry in source order; if every entry
has at least eight elements and some entry fails the type check, the whole
parse fails with an error; if every entry with at least eight elements
type-checks but some entry is shorter, the parse panics. -/
theorem loadContents_characterization (raws : List (List JVal)) :
    ((∀ e ∈ raws, 8 ≤ e.length ∧ (cookEntry e).isSome) →
      ∃ cooked, loadContents raws = .ok cooked ∧ cooked.length = raws.length
        ∧ raws.map cookEntry = cooked.map some)
    ∧ ((∀ e ∈ raws, 8 ≤ e.length) → (∃ e ∈ raws, cookEntry e = none) →
        ∃ msg, loadContents raws = .error msg)
    ∧ ((∀ e ∈ raws, 8 ≤ e.length → (cookEntry e).isSome) → (∃ e ∈ raws, e.length < 8) →
        loadContents raws = .panic "runtime error: index out of range") := by
  induction raws with
  | nil =>
      refine ⟨fun _ => ⟨[], rfl, rfl, rfl⟩, fun _ hex => ?_, fun _ hex => ?_⟩
      · obtain ⟨e, he, _⟩ := hex
        exact absurd he (List.not_mem_nil e)
      · obtain ⟨e, he, _⟩ := hex
        exact absurd he (List.not_mem_nil e)
  | cons e rest ih =>
      refine ⟨fun hall => ?_, fun hlen8 hex => ?_, fun hwt hex => ?_⟩
      · have he := hall e (List.mem_cons_self e rest)
        obtain ⟨cooked, hc, hlen, hmap⟩ :=
          ih.1 (fun x hx => hall x (List.mem_cons_of_mem e hx))
        obtain ⟨ent, hent⟩ := Option.isSome_iff_exists.mp he.2
        refine ⟨ent :: cooked, ?_, by simp [hlen], by simp [hent, hmap]⟩
        simp only [loadContents]
        rw [if_neg (by omega), hent, hc]
      · have hel : 8 ≤ e.length := hlen8 e (List.mem_cons_self e rest)
        cases hce : cookEntry e with
        | none =>
            refine ⟨"Failed to parse keychain contents entry", ?_⟩
            simp only [loadContents]
            rw [if_neg (by omega), hce]
        | some ent =>
            obtain ⟨x, hx, hxnone⟩ := hex
            have hxrest : x ∈ rest := by
              rcases List.mem_cons.mp hx with h | h
              · subst h; rw [hce] at hxnone; exact absurd hxnone (by simp)
              · exact h
            obtain ⟨msg, hmsg⟩ :=
              ih.2.1 (fun y hy => hlen8 y (List.mem_cons_of_mem e hy)) ⟨x, hxrest, hxnone⟩
            refine ⟨msg, ?_⟩
            simp only [loadContents]
            rw [if_neg (by omega), hce, hmsg]
      · by_cases hlenE : e.length < 8
        · simp only [loadContents]
          rw [if_pos hlenE]
        · have hsome := hwt e (List.mem_cons_self e rest) (by omega)
          obtain ⟨ent, hent⟩ := Option.isSome_iff_exists.mp hsome
          obtain ⟨x, hx, hxshort⟩ := hex
          have hxrest : x ∈ rest := by
            rcases List.mem_cons.mp hx with h | h
            · subst h; omega
            · exact h
          have hrest :=
            ih.2.2 (fun y hy => hwt y (List.mem_cons_of_mem e hy)) ⟨x, hxrest, hxshort⟩
          simp only [loadContents]
          rw [if_neg (by omega), hent, hrest]

/-- C7 witness: the characterization applied to a well-typed entry, a
wrongly-typed entry, and a short entry. -/
theorem loadContents_characterization_witness :
    (∃ cooked, loadContents [goodRaw] = .ok cooked ∧ cooked.length = [goodRaw].length
      ∧ [goodRaw].map cookEntry = cooked.map some)
    ∧ (∃ msg, loadContents [badRaw] = .error msg)
    ∧ loadContents [shortRaw] = .panic "runtime error: index out of range" :=
  ⟨(loadContents_characterization [goodRaw]).1 (by decide),
   (loadContents_characterization [badRaw]).2.1 (by decide) ⟨badRaw, by simp, by decide⟩,
   (loadContents_characterization [shortRaw]).2.2 (by decide) ⟨shortRaw, by simp, by decide⟩⟩

/-- C8 counterexample: the claim's clause "otherwise returns the input
with its last p bytes removed" fails at `[2, 2]` with block size 16: the
pad byte is consistent and in range, yet `unpad` rejects the input because
its length is not a multiple of the block size. -/
theorem unpad_always_unpads_counterexample :
    ¬ (∀ (data : List Nat) (bs : Int), data ≠ [] →
        data.getLast?.getD 0 ≠ 0 → data.getLast?.getD 0 ≤ data.length →
        (∀ b ∈ data.drop (data.length - data.getLast?.getD 0), b = data.getLast?.getD 0) →
        unpad data bs = .ok (data.take (data.length - data.getLast?.getD 0))) := by
  intro h
  have h2 := h [2, 2] 16 (by decide) (by decide) (by decide) (by decide)
  exact absurd h2 (by decide)

/-- C8 amended: for every input whose length is a nonzero multiple of a
positive block size, `unpad` reads the last byte as the declared pad
length `p`, fails if `p = 0` or `p` exceeds the input length, fails if any
of the last `p` bytes differs from `p`, and otherwise returns the input
with its last `p` bytes removed. -/
theorem unpad_characterization (data : List Nat) (bs : Int)
    (hbs : 0 < bs) (hne : data ≠ []) (hmod : (data.length : Int) % bs = 0) :
    unpad data bs =
      (if data.getLast?.getD 0 = 0 ∨ data.length < data.getLast?.getD 0 then
        .error "Invalid pad size"
      else if (data.drop (data.length - data.getLast?.getD 0)).all
          (fun b => b == data.getLast?.getD 0) then
        .ok (data.take (data.length - data.getLast?.getD 0))
      else .error "Invalid padding") := by
  have hlenne : data.length ≠ 0 := by
    intro h0
    exact hne (List.length_eq_zero.mp h0)
  simp only [unpad]
  rw [if_neg (by omega), if_neg hlenne, if_neg (by omega)]

/-- C8 witness: the characterization evaluated at a concrete input with a
valid two-byte pad and block size 3. -/
theorem unpad_characterization_witness : unpad [1, 2, 2] 3 = .ok [1] :=
  (unpad_characterization [1, 2, 2] 3 (by decide) (by decide) (by decide)).trans (by decide)

/-- C10: `unpad` rejects the empty input and any input whose length is not
a multiple of the block size with returned errors, and accepts a declared
pad length equal to the whole input length, returning the empty byte
sequence. -/
theorem unpad_rejects_empty_and_offsize (data : List Nat) (bs : Int) :
    (∃ e, unpad [] bs = .error e)
    ∧ (0 < bs → (data.length : Int) % bs ≠ 0 → ∃ e, unpad data bs = .error e)
    ∧ (0 < bs → (data.length : Int) % bs = 0 → data ≠ [] →
        (∀ b ∈ data, b = data.length) → unpad data bs = .ok []) := by
  refine ⟨?_, fun hbs hmod => ?_, fun hbs hmod hne hall => ?_⟩
  · by_cases h : bs ≤ 0
    · exact ⟨"Invalid block size", by simp [unpad, h]⟩
    · exact ⟨"Invalid data", by simp [unpad, h]⟩
  · refine ⟨"Input is not a multiple of blocksize", ?_⟩
    have hlenne : data.length ≠ 0 := by
      intro h0
      rw [h0] at hmod
      simp at hmod
    simp only [unpad]
    rw [if_neg (by omega), if_neg hlenne, if_pos hmod]
  · have hlenne : data.length ≠ 0 := by
      intro h0
      exact hne (List.length_eq_zero.mp h0)
    have hlast : data.getLast?.getD 0 = data.length := by
      rw [List.getLast?_eq_getLast data hne]
      exact hall _ (List.getLast_mem hne)
    simp only [unpad]
    rw [if_neg (by omega), if_neg hlenne, if_neg (by omega), hlast,
      if_neg (by omega), Nat.sub_self, List.drop_zero, List.take_zero,
      if_pos (by simp only [List.all_eq_true, beq_iff_eq]; exact hall)]

/-- C10 witness: the three clauses at concrete inputs — the empty input,
a three-byte input with block size 2, and `[2, 2]` whose declared pad
length equals its whole length. -/
theorem unpad_rejects_empty_and_offsize_witness :
    (∃ e, unpad [] 2 = .error e) ∧ (∃ e, unpad [3, 3, 3] 2 = .error e)
    ∧ unpad [2, 2] 2 = .ok [] :=
  ⟨(unpad_rejects_empty_and_offsize [] 2).1,
   (unpad_rejects_empty_and_offsize [3, 3, 3] 2).2.1 (by decide) (by decide),
   (unpad_rejects_empty_and_offsize [2, 2] 2).2.2 (by decide) (by decide) (by decide)
     (by decide)⟩

/-- C9: round-trip law — unpadding the PKCS#7-padded form of any byte
sequence, for block size 16 and any valid pad amount, returns the
sequence exactly. -/
theorem unpad_pkcs7pad_roundtrip (data : List Nat) (p : Nat)
    (hp1 : 1 ≤ p) (hp16 : p ≤ 16) (hmod : (data.length + p) % 16 = 0) :
    unpad (pkcs7pad data p) 16 = .ok data := by
  have hlen : (pkcs7pad data p).length = data.length + p := by
    simp [pkcs7pad]
  have hlast : (pkcs7pad data p).getLast? = some p := by
    rw [pkcs7pad, List.getLast?_append_of_ne_nil _ (by simp; omega)]
    cases p with
    | zero => omega
    | succ n => rw [List.replicate_succ', List.getLast?_concat]
  have hdrop : (pkcs7pad data p).drop ((pkcs7pad data p).length - p) = List.replicate p p := by
    rw [hlen, Nat.add_sub_cancel, pkcs7pad]
    exact List.drop_left data _
  have htake : (pkcs7pad data p).take ((pkcs7pad data p).length - p) = data := by
    rw [hlen, Nat.add_sub_cancel, pkcs7pad]
    exact List.take_left data _
  simp only [unpad]
  rw [if_neg (by omega), if_neg (by omega), if_neg (by omega), hlast]
  simp only [Option.getD_some]
  rw [if_neg (by omega), hdrop, htake,
    if_pos (by simp only [List.all_eq_true, beq_iff_eq]; exact fun b hb => List.eq_of_mem_replicate hb)]

/-- C9 witness: the round trip at a one-byte input padded with fifteen
pad bytes. -/
theorem unpad_pkcs7pad_roundtrip_witness : unpad (pkcs7pad [7] 15) 16 = .ok [7] :=
  unpad_pkcs7pad_roundtrip [7] 15 (by decide) (by decide) (by decide)

/-- C3: a candidate key is accepted by `validateKey` exactly when the
validation blob parses as a salted blob and its ciphertext, CBC-decrypted
and unpadded under the key/IV that the legacy MD5 scheme derives from the
candidate itself and the blob's salt, equals the candidate byte for byte;
when the decrypted validation plaintext differs from the candidate, the
function fails with the validation-mismatch error. -/
theorem validateKey_accepts_iff_roundtrip (kb vb : List Nat) :
    (validateKey kb vb = .ok () ↔ ∃ s ct, extractSalt vb = .ok (s, ct)
      ∧ cbcDecrypt ct (deriveOpensslKey kb s).1 (deriveOpensslKey kb s).2 = .ok kb)
    ∧ (∀ s ct pt, extractSalt vb = .ok (s, ct) →
        cbcDecrypt ct (deriveOpensslKey kb s).1 (deriveOpensslKey kb s).2 = .ok pt →
        pt ≠ kb → validateKey kb vb = .error "key validation failed") := by
  cases hes : extractSalt vb with
  | panic s =>
      refine ⟨⟨fun h => ?_, fun hex => ?_⟩, fun s2 ct2 pt hok _ _ => ?_⟩
      · simp [validateKey, hes] at h
      · obtain ⟨s2, ct2, hok, _⟩ := hex
        exact GoResult.noConfusion hok
      · exact GoResult.noConfusion hok
  | error e =>
      refine ⟨⟨fun h => ?_, fun hex => ?_⟩, fun s2 ct2 pt hok _ _ => ?_⟩
      · simp [validateKey, hes] at h
      · obtain ⟨s2, ct2, hok, _⟩ := hex
        exact GoResult.noConfusion hok
      · exact GoResult.noConfusion hok
  | ok pr =>
      obtain ⟨salt, blob⟩ := pr
      have hinj : ∀ s2 ct2 : List Nat,
          (GoResult.ok (salt, blob) : GoResult (List Nat × List Nat)) = .ok (s2, ct2) →
          s2 = salt ∧ ct2 = blob := by
        intro s2 ct2 hok
        injection hok with hpair
        exact ⟨(congrArg Prod.fst hpair).symm, (congrArg Prod.snd hpair).symm⟩
      cases hcd : cbcDecrypt blob (deriveOpensslKey kb salt).1 (deriveOpensslKey kb salt).2 with
      | panic s =>
          refine ⟨⟨fun h => ?_, fun hex => ?_⟩, fun s2 ct2 pt hok hcb _ => ?_⟩
          · simp [validateKey, hes, hcd] at h
          · obtain ⟨s2, ct2, hok, hcb⟩ := hex
            obtain ⟨rfl, rfl⟩ := hinj s2 ct2 hok
            rw [hcd] at hcb
            exact GoResult.noConfusion hcb
          · obtain ⟨rfl, rfl⟩ := hinj s2 ct2 hok
            rw [hcd] at hcb
            exact GoResult.noConfusion hcb
      | error e =>
          refine ⟨⟨fun h => ?_, fun hex => ?_⟩, fun s2 ct2 pt hok hcb _ => ?_⟩
          · simp [validateKey, hes, hcd] at h
          · obtain ⟨s2, ct2, hok, hcb⟩ := hex
            obtain ⟨rfl, rfl⟩ := hinj s2 ct2 hok
            rw [hcd] at hcb
            exact GoResult.noConfusion hcb
          · obtain ⟨rfl, rfl⟩ := hinj s2 ct2 hok
            rw [hcd] at hcb
            exact GoResult.noConfusion hcb
      | ok vr =>
          by_cases hkb : kb = vr
          · subst hkb
            refine ⟨⟨fun _ => ⟨salt, blob, rfl, hcd⟩, fun _ => ?_⟩,
                    fun s2 ct2 pt hok hcb hne => ?_⟩
            · simp [validateKey, hes, hcd]
            · obtain ⟨rfl, rfl⟩ := hinj s2 ct2 hok
              rw [hcd] at hcb
              injection hcb with hvr
              exact absurd hvr.symm hne
          · refine ⟨⟨fun h => ?_, fun hex => ?_⟩, fun s2 ct2 pt hok hcb hne => ?_⟩
            · simp [validateKey, hes, hcd, hkb] at h
            · obtain ⟨s2, ct2, hok, hcb⟩ := hex
              obtain ⟨rfl, rfl⟩ := hinj s2 ct2 hok
              rw [hcd] at hcb
              injection hcb with hvr
              exact absurd hvr.symm hkb
            · simp [validateKey, hes, hcd, hkb]

/-- C3 witness: a concrete four-byte candidate is accepted against a
validation blob whose ciphertext decrypts to the candidate plus PKCS#7
padding under the candidate-derived key and IV. -/
theorem validateKey_accepts_iff_roundtrip_witness : validateKey kbW vbW = .ok () :=
  (validateKey_accepts_iff_roundtrip kbW vbW).1.mpr ⟨sW, ctW, by decide, by decide⟩

/-- C1 counterexample: key recovery on the crafted record list succeeds
(the load returns `ok`), yet the operation's result is the bare unit value
— and the specification's mapping does not even exist for this input,
since the record's wrapped key fails step-5 decryption. No mapping from
identifier to validated raw key bytes is returned to the caller. -/
theorem loadEncryptionKeys_returns_no_mapping :
    loadEncryptionKeys [recordBug] passBug = .ok ()
    ∧ ∀ m, recoverKeysSpec [recordBug] passBug ≠ .ok m := by
  refine ⟨by decide, fun m h => ?_⟩
  have hspec : recoverKeysSpec [recordBug] passBug = .error "KeyDecryptionFailed" := rfl
  rw [hspec] at h
  exact Except.noConfusion h

/-- C1 amended: whenever the key-recovery loop succeeds, every listed
record base64-decoded cleanly and its candidate key — the decrypted
wrapped key, or the nil slice when decryption failed — passed the
`validateKey` check; the loop returns only the success indication,
exposing no key material. -/
theorem loadEncryptionKeys_validates_every_record :
    ∀ (recs : List RawEncryptionKey) (pass : List Nat),
      loadEncryptionKeys recs pass = .ok () →
      ∀ r ∈ recs, ∃ d v, b64decode (stripTrailingNull r.data) = some d
        ∧ b64decode (stripTrailingNull r.validation) = some v
        ∧ validateKey (keyBytesOf (decryptKey d r.iterations pass)) v = .ok () := by
  intro recs
  induction recs with
  | nil =>
      intro pass _ r hr
      exact absurd hr (List.not_mem_nil r)
  | cons q rest ih =>
      intro pass h r hr
      simp only [loadEncryptionKeys] at h
      split at h
      · exact GoResult.noConfusion h
      next data hd =>
        split at h
        · exact GoResult.noConfusion h
        next validation hv =>
          split at h
          · exact GoResult.noConfusion h
          next dk hdk =>
            split at h
            · exact GoResult.noConfusion h
            · exact GoResult.noConfusion h
            next u hvk =>
              rcases List.mem_cons.mp hr with rfl | hrrest
              · exact ⟨data, validation, hd, hv, hvk⟩
              · exact ih pass h r hrrest

/-- C1 amended witness: the crafted single-record list loads successfully,
so its record decodes and its (nil) candidate passed validation. -/
theorem loadEncryptionKeys_validates_every_record_witness :
    ∃ d v, b64decode (stripTrailingNull recordBug.data) = some d
      ∧ b64decode (stripTrailingNull recordBug.validation) = some v
      ∧ validateKey (keyBytesOf (decryptKey d recordBug.iterations passBug)) v = .ok () :=
  loadEncryptionKeys_validates_every_record [recordBug] passBug (by decide) recordBug
    (List.mem_singleton.mpr rfl)

/-- C2: on the crafted record, the AES-CBC decryption of the wrapped key
fails in `unpad` (returned error), yet `decryptKey` reports `ok` with the
nil key — the source's `return key, nil` discards the error — and the
whole load succeeds because the validation blob happens to validate the
nil candidate. A step-5 failure does not cause the load to fail. -/
theorem loadEncryptionKeys_swallows_step5_failure :
    cbcDecrypt (dataBug.drop 16)
        ((pbkdf2Key passBug ((dataBug.drop 8).take 8) 1 32).take 16)
        (((pbkdf2Key passBug ((dataBug.drop 8).take 8) 1 32).drop 16).take 16)
      = .error "Invalid pad size"
    ∧ decryptKey dataBug 1 passBug = .ok []
    ∧ loadEncryptionKeys [recordBug] passBug = .ok () :=
  ⟨by decide, by decide, by decide⟩
